import Mathlib

/-!
Verification of the quoting/geometry core of the nestjs-ecommerce repository.

The development shallowly embeds:
* `QuotesService.calculatePricing`, `calculatePrintTime`, `calculateDeliveryDays`
  and the volume-defaulting logic of `createQuote`
  (src/src/modules/quotes/quotes.service.ts), over exact rationals; the
  source's `Math.round(x*100)/100` is `round2`, JavaScript `Math.round`
  being `⌊x + 1/2⌋` on finite values.
* `StlParserService` (STL mesh analysis): JavaScript numbers are modelled by
  `JsNum` (NaN, ±Infinity, or an exact rational), because the bounding-box
  accumulators are seeded with `±Infinity` and those infinities are
  observable in the output for meshes with no vertices.
-/

/-! ## The JavaScript number model

All arithmetic in the source runs on JavaScript doubles.  `JsNum` models them
as NaN, ±Infinity, or an exact rational; finite-precision rounding is
idealised away (the spec mandates 2-decimal tolerance), but the NaN/Infinity
algebra is kept because it is observable: the STL min/max accumulators are
seeded with `±Infinity`, and a post-processing tag naming an inherited
`Object.prototype` member corrupts the fee accumulator into NaN. -/

inductive JsNum where
  | nan : JsNum
  | posInf : JsNum
  | negInf : JsNum
  | fin : ℚ → JsNum
deriving DecidableEq

namespace JsNum

/-- JavaScript unary minus. -/
def jneg : JsNum → JsNum
  | nan => nan
  | posInf => negInf
  | negInf => posInf
  | fin q => fin (-q)

/-- JavaScript `+`: NaN propagates, `Infinity + (-Infinity)` is NaN. -/
def jadd : JsNum → JsNum → JsNum
  | nan, _ => nan
  | _, nan => nan
  | posInf, negInf => nan
  | negInf, posInf => nan
  | posInf, _ => posInf
  | _, posInf => posInf
  | negInf, _ => negInf
  | _, negInf => negInf
  | fin a, fin b => fin (a + b)

/-- JavaScript `-`, as `a + (-b)` (which agrees with IEEE subtraction). -/
def jsub (a b : JsNum) : JsNum := jadd a (jneg b)

/-- JavaScript `*`: NaN propagates, `0 * ±Infinity` is NaN. -/
def jmul : JsNum → JsNum → JsNum
  | nan, _ => nan
  | _, nan => nan
  | posInf, posInf => posInf
  | posInf, negInf => negInf
  | negInf, posInf => negInf
  | negInf, negInf => posInf
  | posInf, fin q => if 0 < q then posInf else if q < 0 then negInf else nan
  | fin q, posInf => if 0 < q then posInf else if q < 0 then negInf else nan
  | negInf, fin q => if 0 < q then negInf else if q < 0 then posInf else nan
  | fin q, negInf => if 0 < q then negInf else if q < 0 then posInf else nan
  | fin a, fin b => fin (a * b)

/-- JavaScript `/` (signed zero collapsed to 0; the source only divides by
the positive constants 6, 100, 1000 and never divides by zero). -/
def jdiv : JsNum → JsNum → JsNum
  | nan, _ => nan
  | _, nan => nan
  | posInf, posInf => nan
  | posInf, negInf => nan
  | negInf, posInf => nan
  | negInf, negInf => nan
  | posInf, fin q => if q < 0 then negInf else posInf
  | negInf, fin q => if q < 0 then posInf else negInf
  | fin _, posInf => fin 0
  | fin _, negInf => fin 0
  | fin a, fin b =>
    if b = 0 then (if a = 0 then nan else if 0 < a then posInf else negInf)
    else fin (a / b)

/-- JavaScript `Math.min`: NaN propagates. -/
def jmin : JsNum → JsNum → JsNum
  | nan, _ => nan
  | _, nan => nan
  | posInf, b => b
  | a, posInf => a
  | negInf, _ => negInf
  | _, negInf => negInf
  | fin a, fin b => fin (min a b)

/-- JavaScript `Math.max`: NaN propagates. -/
def jmax : JsNum → JsNum → JsNum
  | nan, _ => nan
  | _, nan => nan
  | negInf, b => b
  | a, negInf => a
  | posInf, _ => posInf
  | _, posInf => posInf
  | fin a, fin b => fin (max a b)

/-- JavaScript `Math.abs`. -/
def jabs : JsNum → JsNum
  | nan => nan
  | posInf => posInf
  | negInf => posInf
  | fin q => fin |q|

/-- JavaScript `Math.round`: half rounds toward +∞, i.e. `⌊x + 1/2⌋` on
finite values; NaN and infinities pass through. -/
def jround : JsNum → JsNum
  | nan => nan
  | posInf => posInf
  | negInf => negInf
  | fin q => fin ((⌊q + 1/2⌋ : ℤ) : ℚ)

/-- Heron iteration for the integer square root, with explicit fuel so that
it reduces by structural recursion (kernel-evaluable, unlike `Nat.sqrt`).
From `x₀ = n` the iteration is strictly decreasing until it reaches
`⌊√n⌋`, and it converges in far fewer than `n` steps, so fuel `n` always
suffices. -/
def heronGo : ℕ → ℕ → ℕ → ℕ
  | 0, _, x => x
  | f + 1, n, x =>
    let next := (x + n / x) / 2
    if next < x then heronGo f n next else x

/-- Integer square root (`⌊√n⌋`) by fuelled Heron iteration. -/
def isqrt (n : ℕ) : ℕ := if n = 0 then 0 else heronGo n n n

/-- Rational square root, exact whenever the argument is the square of a
rational — which every `Math.sqrt` argument in the claims below is.  (On
non-squares it truncates componentwise; `Math.sqrt` on doubles likewise
answers exactly on exactly-representable squares.) -/
def ratSqrt (q : ℚ) : ℚ := ((isqrt q.num.toNat : ℤ) : ℚ) / ((isqrt q.den : ℤ) : ℚ)

/-- JavaScript `Math.sqrt`: NaN on negatives and NaN, `Infinity` on
`Infinity`. -/
def jsqrt : JsNum → JsNum
  | nan => nan
  | posInf => posInf
  | negInf => nan
  | fin q => if q < 0 then nan else fin (ratSqrt q)

/-- JavaScript `<`: false whenever an operand is NaN. -/
def jlt : JsNum → JsNum → Bool
  | nan, _ => false
  | _, nan => false
  | negInf, negInf => false
  | negInf, _ => true
  | _, negInf => false
  | posInf, posInf => false
  | _, posInf => true
  | posInf, _ => false
  | fin a, fin b => decide (a < b)

/-- JavaScript `a > b` is `b < a`. -/
def jgt (a b : JsNum) : Bool := jlt b a

end JsNum

open JsNum

/-- `Math.round(v * 100) / 100` on a JavaScript number. -/
def round2J (a : JsNum) : JsNum := jdiv (jround (jmul a (fin 100))) (fin 100)

/-! ## Pricing: data model (quote.entity.ts / material.entity.ts) -/

/-- `MaterialPricing` — the `pricing` column of `Material`
(basePrice per cm³, setupFee, minPrice, optional currency). -/
structure MaterialPricing where
  basePrice : ℚ
  setupFee : ℚ
  minPrice : ℚ
  currency : Option String
deriving DecidableEq

/-- `PrintConfiguration` from quote.entity.ts.  `quantity` is validated as an
integer in 1..1000 by the DTO layer, so it is carried as `ℕ`. -/
structure PrintConfiguration where
  quantity : ℕ
  color : String
  infillPercentage : ℚ
  layerHeight : ℚ
  supportStructures : Bool
  postProcessing : List String
deriving DecidableEq

/-- `PricingBreakdown` from quote.entity.ts.  The fields fed by the
post-processing fee accumulator can be NaN (see `postFeeLoop`) and are
carried as `JsNum`; the others are plain number arithmetic on validated
finite inputs and stay exact rationals. -/
@[ext] structure PricingBreakdown where
  materialCost : ℚ
  laborCost : ℚ
  setupFee : ℚ
  postProcessingFee : JsNum
  subtotal : JsNum
  discount : JsNum
  total : JsNum
  currency : String
deriving DecidableEq

/-- `Material` — the fields of the material entity used by `createQuote`:
`pricing`, `properties.colorOptions`, `leadTimeDays`. -/
structure Material where
  pricing : MaterialPricing
  colorOptions : List String
  leadTimeDays : ℤ
deriving DecidableEq

/-- The stored `FileAnalysis` fields `createQuote` reads (`volume`,
`hasErrors`). -/
structure StoredFileAnalysis where
  volume : ℚ
  hasErrors : Bool
deriving DecidableEq

/-- `Math.round(x * 100) / 100` on finite values: JavaScript `Math.round`
rounds half toward +∞, i.e. `⌊x + 1/2⌋`. -/
def round2 (q : ℚ) : ℚ := ((⌊q * 100 + 1/2⌋ : ℤ) : ℚ) / 100

/-- `Math.round(x * 10) / 10` on finite values. -/
def round1 (q : ℚ) : ℚ := ((⌊q * 10 + 1/2⌋ : ℤ) : ℚ) / 10

/-- The standard `Object.prototype` property names.  `POST_PROCESSING_COSTS`
is a plain object literal, so the bracket read `POST_PROCESSING_COSTS[process]`
walks the prototype chain: on these keys it yields the inherited member (a
function, or the prototype object for `__proto__`) instead of `undefined`. -/
def objectProtoNames : List String :=
  ["constructor", "hasOwnProperty", "isPrototypeOf", "propertyIsEnumerable",
   "toLocaleString", "toString", "valueOf", "__proto__",
   "__defineGetter__", "__defineSetter__", "__lookupGetter__", "__lookupSetter__"]

/-- The result of the JavaScript property read on a tag string. -/
inductive FeeLookup where
  /-- An own entry of the fee table (a nonzero number). -/
  | fee : ℚ → FeeLookup
  /-- An inherited, truthy, non-numeric `Object.prototype` member. -/
  | protoMember : FeeLookup
  /-- `undefined`. -/
  | undef : FeeLookup
deriving DecidableEq

/-- The `POST_PROCESSING_COSTS` object from quotes.service.ts, read with the
prototype-chain semantics of `POST_PROCESSING_COSTS[process]`. -/
def POST_PROCESSING_COSTS (s : String) : FeeLookup :=
  if s = "sanding" then FeeLookup.fee 20
  else if s = "painting" then FeeLookup.fee 35
  else if s = "polishing" then FeeLookup.fee 25
  else if s = "assembly" then FeeLookup.fee 50
  else if s = "heat-treatment" then FeeLookup.fee 40
  else if s ∈ objectProtoNames then FeeLookup.protoMember
  else FeeLookup.undef

/-- The post-processing fee loop of `calculatePricing`:
`if (POST_PROCESSING_COSTS[process]) fee += ...`.  A table fee is truthy and
added; `undefined` is falsy and skipped; an inherited `Object.prototype`
member is truthy too, and `number += function` (or `+= object`) turns the
accumulator into a string whose later coercion by
`Math.round(fee * quantity * 100)` is NaN — the string is `"0function …"` or
`"0[object Object]"` and never a numeric literal, and once a string the
accumulator stays one, so going to NaN at the first such tag is exact. -/
def postFeeLoop (ps : List String) : JsNum :=
  ps.foldl
    (fun acc p =>
      match POST_PROCESSING_COSTS p with
      | FeeLookup.fee c => jadd acc (fin c)
      | FeeLookup.protoMember => nan
      | FeeLookup.undef => acc)
    (fin 0)

/-- `QuotesService.calculatePricing` (quotes.service.ts lines 167-224),
with `LABOR_RATE_PER_HOUR = 15` and `BASE_PRINT_SPEED = 30` inlined as in the
source constants. -/
def calculatePricing (volumeCm3 : ℚ) (pricing : MaterialPricing)
    (config : PrintConfiguration) : PricingBreakdown :=
  let effectiveVolume :=
    volumeCm3 * (config.infillPercentage / 100) * 0.8 + volumeCm3 * 0.2
  let materialCostPerUnit := effectiveVolume * pricing.basePrice
  let printTimePerUnit := effectiveVolume / 30
  let laborCostPerUnit := printTimePerUnit * 15
  let feeRaw := postFeeLoop config.postProcessing
  let materialCost := round2 (materialCostPerUnit * config.quantity)
  let laborCost := round2 (laborCostPerUnit * config.quantity)
  let setupFee := pricing.setupFee
  let postProcessingFee := round2J (jmul feeRaw (fin config.quantity))
  let subtotal := jadd (fin (materialCost + laborCost + setupFee)) postProcessingFee
  let discount :=
    if config.quantity ≥ 10 then round2J (jmul subtotal (fin 0.1))
    else if config.quantity ≥ 5 then round2J (jmul subtotal (fin 0.05))
    else fin 0
  let total := jmax (round2J (jsub subtotal discount)) (fin pricing.minPrice)
  { materialCost := materialCost
    laborCost := laborCost
    setupFee := setupFee
    postProcessingFee := postProcessingFee
    subtotal := round2J subtotal
    discount := discount
    total := total
    currency := pricing.currency.getD "AED" }

/-- `QuotesService.calculatePrintTime` (quotes.service.ts lines 226-245). -/
def calculatePrintTime (volumeCm3 : ℚ) (config : PrintConfiguration) : ℚ :=
  let baseTime := volumeCm3 / 30
  let layerFactor := 0.2 / config.layerHeight
  let infillFactor := config.infillPercentage / 20
  let supportFactor : ℚ := if config.supportStructures then 1.3 else 1
  let totalHours :=
    baseTime * layerFactor * infillFactor * supportFactor * config.quantity
  round1 totalHours

/-- `QuotesService.calculateDeliveryDays` (quotes.service.ts lines 247-262);
`Math.ceil` is `Int.ceil` on the finite nonnegative hours value. -/
def calculateDeliveryDays (printTimeHours : ℚ) (materialLeadTime : ℤ)
    (config : PrintConfiguration) : ℤ :=
  let printDays : ℤ := ⌈printTimeHours / 8⌉
  let postProcessDays : ℤ := if config.postProcessing.length > 0 then 1 else 0
  let shippingDays : ℤ := 2
  materialLeadTime + printDays + postProcessDays + shippingDays

/-- The computational core of `QuotesService.createQuote`
(quotes.service.ts lines 35-111) after the file ownership/status checks:
the `analysis?.hasErrors` rejection, the volume defaulting
`file.analysis?.volume || 100` (`0` is falsy, hence also defaulted), the
color validation, and the pricing/time/delivery computations.  Thrown
`BadRequestException`s are the `Except.error` branch. -/
def createQuoteCompute (analysis : Option StoredFileAnalysis)
    (material : Material) (config : PrintConfiguration) :
    Except String (PricingBreakdown × ℚ × ℤ) :=
  if (match analysis with
      | some a => a.hasErrors
      | none => false) then
    Except.error "File analysis has errors"
  else
    let fileVolume : ℚ :=
      match analysis with
      | some a => if a.volume = 0 then 100 else a.volume
      | none => 100
    if material.colorOptions.contains config.color then
      let pricing := calculatePricing fileVolume material.pricing config
      let hours := calculatePrintTime fileVolume config
      Except.ok (pricing, hours, calculateDeliveryDays hours material.leadTimeDays config)
    else
      Except.error "Color is not available for this material"

/-! ## Pricing: claim-level (spec-worded) definitions -/

/-- Spec §4.3 step 1: `effectiveVolume E = V·(I/100)·0.8 + V·0.2`. -/
def specEffectiveVolume (V I : ℚ) : ℚ := V * (I / 100) * 0.8 + V * 0.2

/-- Claim C1's post-processing sum: Σ over tags of the table fee, a tag
outside the table costing 0 (exact for tag lists free of `Object.prototype`
property names, the amended claim's proviso). -/
def specPostSum (P : List String) : ℚ :=
  (P.map (fun t =>
    match POST_PROCESSING_COSTS t with
    | FeeLookup.fee c => c
    | _ => 0)).sum

/-- The pricing breakdown as claim C1 words it, amended in the `subtotal`
field — the code stores `round2` of the sum
`materialCost + laborCost + setupFee + postProcessingFee` (observable when
the raw setup fee is not a whole number of cents); discount and total are
computed from the unrounded sum, exactly as the claim says.  Meaningful only
under the amended claim's proviso that no tag is an `Object.prototype`
property name (otherwise the program's fee pipeline is NaN, see
`postFeeLoop`). -/
def specPricing (V B S M : ℚ) (cur : Option String) (Q : ℕ) (I : ℚ)
    (P : List String) : PricingBreakdown :=
  let E := specEffectiveVolume V I
  let mc := round2 (E * B * Q)
  let lc := round2 (E / 30 * 15 * Q)
  let pf := round2 (Q * specPostSum P)
  let sub := mc + lc + S + pf
  let disc :=
    if 10 ≤ Q then round2 (0.1 * sub)
    else if 5 ≤ Q then round2 (0.05 * sub)
    else (0 : ℚ)
  { materialCost := mc
    laborCost := lc
    setupFee := S
    postProcessingFee := fin pf
    subtotal := fin (round2 sub)
    discount := fin disc
    total := fin (max (round2 (sub - disc)) M)
    currency := cur.getD "AED" }


open JsNum in
/-- A vertex as read by the parser. -/
structure Vec3 where
  x : JsNum
  y : JsNum
  z : JsNum
deriving DecidableEq

open JsNum

/-- `StlParserService.calculateTriangleArea` (part_005 lines 367-384):
`0.5 * Math.sqrt(cx*cx + cy*cy + cz*cz)` with `c` the cross product of the
two edge vectors from `v0`. -/
def calculateTriangleArea (v0 v1 v2 : Vec3) : JsNum :=
  let ax := jsub v1.x v0.x
  let ay := jsub v1.y v0.y
  let az := jsub v1.z v0.z
  let bx := jsub v2.x v0.x
  let by' := jsub v2.y v0.y
  let bz := jsub v2.z v0.z
  let cx := jsub (jmul ay bz) (jmul az by')
  let cy := jsub (jmul az bx) (jmul ax bz)
  let cz := jsub (jmul ax by') (jmul ay bx)
  jmul (fin (1/2)) (jsqrt (jadd (jadd (jmul cx cx) (jmul cy cy)) (jmul cz cz)))

/-- `StlParserService.calculateSignedVolume` (part_005 lines 386-395):
`(v0·(v1×v2)) / 6` relative to the origin. -/
def calculateSignedVolume (v0 v1 v2 : Vec3) : JsNum :=
  jdiv
    (jadd
      (jadd
        (jmul v0.x (jsub (jmul v1.y v2.z) (jmul v2.y v1.z)))
        (jmul v1.x (jsub (jmul v2.y v0.z) (jmul v0.y v2.z))))
      (jmul v2.x (jsub (jmul v0.y v1.z) (jmul v1.y v0.z))))
    (fin 6)

/-- Byte access on a buffer (`List ℕ` of byte values); out-of-range reads
never occur on the paths the code takes (the length checks precede them), so
a default of 0 is immaterial. -/
def byteAt (buf : List ℕ) (i : ℕ) : ℕ := (buf.getD i 0) % 256

/-- `Buffer.readUInt32LE`. -/
def readUInt32LE (buf : List ℕ) (off : ℕ) : ℕ :=
  byteAt buf off + 256 * byteAt buf (off + 1)
    + 65536 * byteAt buf (off + 2) + 16777216 * byteAt buf (off + 3)

/-- IEEE-754 binary32 decoding of a 32-bit pattern, as an exact `JsNum`
(a float32 value is exactly representable as a double, hence as a rational;
NaN payloads collapse to the single NaN). -/
def decodeFloat32 (bits : ℕ) : JsNum :=
  let sign : ℕ := bits / 2 ^ 31 % 2
  let ex : ℕ := bits / 2 ^ 23 % 256
  let frac : ℕ := bits % 2 ^ 23
  if ex = 255 then
    if frac = 0 then (if sign = 1 then negInf else posInf) else nan
  else
    let mag : ℚ :=
      if ex = 0 then (frac : ℚ) / 2 ^ 149
      else ((2 ^ 23 + frac : ℕ) : ℚ) * 2 ^ ex / 2 ^ 150
    fin (if sign = 1 then -mag else mag)

/-- `Buffer.readFloatLE`. -/
def readFloatLE (buf : List ℕ) (off : ℕ) : JsNum :=
  decodeFloat32 (readUInt32LE buf off)

/-- The bounding box of `FileAnalysis` (file.entity.ts). -/
structure BoundingBox where
  x : JsNum
  y : JsNum
  z : JsNum
deriving DecidableEq

/-- `FileAnalysis` (file.entity.ts) as produced by `StlParserService`;
`errors` is absent (empty) on every success path. -/
structure FileAnalysis where
  volume : JsNum
  surfaceArea : JsNum
  boundingBox : BoundingBox
  triangleCount : ℕ
  isWatertight : Bool
  hasErrors : Bool
  errors : List String := []
deriving DecidableEq

/-- The running accumulators of the analysis pass, shared verbatim by the
binary and ASCII branches: per-axis min/max seeded at `±Infinity`, plus the
signed-volume and surface-area sums. -/
structure GeoAcc where
  minX : JsNum
  minY : JsNum
  minZ : JsNum
  maxX : JsNum
  maxY : JsNum
  maxZ : JsNum
  totalVolume : JsNum
  totalSurfaceArea : JsNum
deriving DecidableEq

/-- `minX = Infinity, ..., maxZ = -Infinity, totalVolume = 0,
totalSurfaceArea = 0`. -/
def initAcc : GeoAcc :=
  ⟨posInf, posInf, posInf, negInf, negInf, negInf, fin 0, fin 0⟩

/-- The per-vertex min/max updates. -/
def accVertex (acc : GeoAcc) (v : Vec3) : GeoAcc :=
  { acc with
    minX := jmin acc.minX v.x
    minY := jmin acc.minY v.y
    minZ := jmin acc.minZ v.z
    maxX := jmax acc.maxX v.x
    maxY := jmax acc.maxY v.y
    maxZ := jmax acc.maxZ v.z }

/-- The per-triangle area/volume accumulation
(`totalSurfaceArea += area; totalVolume += volume`). -/
def accTriangle (acc : GeoAcc) (v0 v1 v2 : Vec3) : GeoAcc :=
  { acc with
    totalSurfaceArea := jadd acc.totalSurfaceArea (calculateTriangleArea v0 v1 v2)
    totalVolume := jadd acc.totalVolume (calculateSignedVolume v0 v1 v2) }


/-- The result record both analysis branches build from the accumulators
(part_005 lines 291-306 and 349-364, textually identical in the source):
mm³→cm³ and mm²→cm² conversion, 2-decimal rounding, bounding-box extents,
and the `totalVolume > 0` watertightness heuristic. -/
def mkAnalysis (acc : GeoAcc) (count : ℕ) : FileAnalysis :=
  let volumeCm3 := jdiv (jabs acc.totalVolume) (fin 1000)
  let surfaceAreaCm2 := jdiv acc.totalSurfaceArea (fin 100)
  { volume := round2J volumeCm3
    surfaceArea := round2J surfaceAreaCm2
    boundingBox :=
      ⟨round2J (jsub acc.maxX acc.minX),
       round2J (jsub acc.maxY acc.minY),
       round2J (jsub acc.maxZ acc.minZ)⟩
    triangleCount := count
    isWatertight := jgt acc.totalVolume (fin 0)
    hasErrors := false }

/-- One iteration of the binary triangle loop (part_005 lines 260-289):
skip the 12 normal bytes, read three vertices (updating min/max after each),
then accumulate area and signed volume. -/
def binaryTriangleStep (buf : List ℕ) (acc : GeoAcc) (i : ℕ) : GeoAcc :=
  let off := 84 + i * 50
  let v0 : Vec3 := ⟨readFloatLE buf (off + 12), readFloatLE buf (off + 16), readFloatLE buf (off + 20)⟩
  let v1 : Vec3 := ⟨readFloatLE buf (off + 24), readFloatLE buf (off + 28), readFloatLE buf (off + 32)⟩
  let v2 : Vec3 := ⟨readFloatLE buf (off + 36), readFloatLE buf (off + 40), readFloatLE buf (off + 44)⟩
  let acc := accVertex (accVertex (accVertex acc v0) v1) v2
  accTriangle acc v0 v1 v2

/-- The whole binary triangle loop. -/
def binaryPass (buf : List ℕ) (n : ℕ) : GeoAcc :=
  (List.range n).foldl (binaryTriangleStep buf) initAcc

/-- `StlParserService.analyzeBinaryStl` (part_005 lines 235-307);
`throw new Error(...)` is the `Except.error` branch. -/
def analyzeBinaryStl (buf : List ℕ) : Except String FileAnalysis :=
  if buf.length < 84 then Except.error "Invalid binary STL: file too small"
  else
    let triangleCount := readUInt32LE buf 80
    let expectedSize := 84 + triangleCount * 50
    if buf.length < expectedSize then Except.error "Invalid binary STL: unexpected file size"
    else Except.ok (mkAnalysis (binaryPass buf triangleCount) triangleCount)

/-! ### ASCII branch -/

/-- `buffer.toString('ascii')`: Node's `'ascii'` decoding masks each byte to
7 bits. -/
def toAsciiChars (buf : List ℕ) : List ℕ := buf.map (· % 128)

/-- `content.split('\n')` on a list of character codes. -/
def splitOnNl : List ℕ → List (List ℕ)
  | [] => [[]]
  | c :: rest =>
    match splitOnNl rest with
    | [] => [[c]]
    | l :: ls => if c = 10 then [] :: l :: ls else (c :: l) :: ls

/-- The ASCII whitespace characters relevant after 7-bit masking and
newline splitting (space, tab, VT, FF, CR); both `String.prototype.trim`
and the `\s` class treat them as whitespace. -/
def isWsChar (c : ℕ) : Bool := c = 32 || c = 9 || c = 11 || c = 12 || c = 13

/-- `line.trim()`. -/
def jsTrim (l : List ℕ) : List ℕ :=
  ((l.dropWhile isWsChar).reverse.dropWhile isWsChar).reverse

/-- `toLowerCase` on an ASCII character code. -/
def toLowerC (c : ℕ) : ℕ := if 65 ≤ c ∧ c ≤ 90 then c + 32 else c

/-- `s.toLowerCase()`. -/
def toLowerStr (l : List ℕ) : List ℕ := l.map toLowerC

/-- Character codes of `"solid"`. -/
def solidCodes : List ℕ := [115, 111, 108, 105, 100]

/-- Character codes of `"vertex"`. -/
def vertexCodes : List ℕ := [118, 101, 114, 116, 101, 120]

/-- Character codes of `"endfacet"`. -/
def endfacetCodes : List ℕ := [101, 110, 100, 102, 97, 99, 101, 116]

/-- `s.startsWith(p)` on character-code lists. -/
def startsWithL (l p : List ℕ) : Bool := p.isPrefixOf l

/-- `trimmed.split(/\s+/)` on an already-trimmed line: the maximal
whitespace-free runs.  (On a string with leading whitespace the JavaScript
split would add a leading empty token; the source only splits trimmed
strings, where the two agree.) -/
def wordsGo : List ℕ → List ℕ → List (List ℕ)
  | [], cur => if cur = [] then [] else [cur.reverse]
  | c :: rest, cur =>
    if isWsChar c then
      if cur = [] then wordsGo rest [] else cur.reverse :: wordsGo rest []
    else wordsGo rest (c :: cur)

/-- `trimmed.split(/\s+/)`. -/
def wordsWs (l : List ℕ) : List (List ℕ) := wordsGo l []

/-- Numeric value of a digit run. -/
def digitsVal (ds : List ℕ) : ℕ := ds.foldl (fun a d => a * 10 + (d - 48)) 0

/-- ASCII digit test. -/
def isDigit (c : ℕ) : Bool := 48 ≤ c && c ≤ 57

/-- Character codes of `"Infinity"` (case-sensitive, as `parseFloat`
requires; the parser lowercases lines first, so this never fires there). -/
def infinityCodes : List ℕ := [73, 110, 102, 105, 110, 105, 116, 121]

/-- JavaScript `parseFloat`: skip leading whitespace, optional sign,
`Infinity` or the longest decimal-literal run (integer part, optional
fraction, optional exponent with at least one digit), NaN when no numeric
run exists.  Values are kept exact rather than rounded to doubles. -/
def parseFloatJs (l : List ℕ) : JsNum :=
  let l1 := l.dropWhile isWsChar
  let sgnNeg : Bool :=
    match l1 with
    | 45 :: _ => true
    | _ => false
  let l2 : List ℕ :=
    match l1 with
    | 43 :: r => r
    | 45 :: r => r
    | _ => l1
  if startsWithL l2 infinityCodes then (if sgnNeg then negInf else posInf)
  else
    let ip := l2.takeWhile isDigit
    let l3 := l2.dropWhile isDigit
    let fp : List ℕ :=
      match l3 with
      | 46 :: r => r.takeWhile isDigit
      | _ => []
    let l4 : List ℕ :=
      match l3 with
      | 46 :: r => r.dropWhile isDigit
      | _ => l3
    if ip = [] ∧ fp = [] then nan
    else
      let mant : ℚ := (digitsVal ip : ℚ) + (digitsVal fp : ℚ) / 10 ^ fp.length
      let expVal : ℤ :=
        match l4 with
        | e :: r =>
          if e = 101 ∨ e = 69 then
            let esNeg : Bool :=
              match r with
              | 45 :: _ => true
              | _ => false
            let r2 : List ℕ :=
              match r with
              | 43 :: r2 => r2
              | 45 :: r2 => r2
              | _ => r
            let eds := r2.takeWhile isDigit
            if eds = [] then 0
            else if esNeg then -(digitsVal eds : ℤ) else (digitsVal eds : ℤ)
          else 0
        | [] => 0
      fin ((if sgnNeg then -mant else mant) * (10 : ℚ) ^ expVal)

/-- The mutable state of the ASCII line loop (part_005 lines 313-318):
geometry accumulators, `triangleCount`, `currentVertices`. -/
structure AsciiState where
  geo : GeoAcc
  triangleCount : ℕ
  currentVertices : List Vec3
deriving DecidableEq

/-- One iteration of the ASCII line loop (part_005 lines 320-347): a
trimmed+lowercased line starting `"vertex"` with at least 4 tokens pushes a
vertex (updating min/max); a line starting `"endfacet"` closes a facet,
emitting a triangle only when exactly 3 vertices are pending (the
`length === 3` guard is rendered as the 3-element match) and clearing the
pending list either way. -/
def asciiLineStep (st : AsciiState) (line : List ℕ) : AsciiState :=
  let trimmed := toLowerStr (jsTrim line)
  if startsWithL trimmed vertexCodes then
    let parts := wordsWs trimmed
    if 4 ≤ parts.length then
      let v : Vec3 :=
        ⟨parseFloatJs (parts.getD 1 []), parseFloatJs (parts.getD 2 []),
          parseFloatJs (parts.getD 3 [])⟩
      { st with
        currentVertices := st.currentVertices ++ [v]
        geo := accVertex st.geo v }
    else st
  else if startsWithL trimmed endfacetCodes then
    match st.currentVertices with
    | [v0, v1, v2] =>
      { geo := accTriangle st.geo v0 v1 v2
        triangleCount := st.triangleCount + 1
        currentVertices := [] }
    | _ => { st with currentVertices := [] }
  else st

/-- `StlParserService.analyzeAsciiStl` (part_005 lines 309-365). -/
def analyzeAsciiStl (buf : List ℕ) : FileAnalysis :=
  let lines := splitOnNl (toAsciiChars buf)
  let final := lines.foldl asciiLineStep ⟨initAcc, 0, []⟩
  mkAnalysis final.geo final.triangleCount

/-- `StlParserService.isBinaryStl` (part_005 lines 228-233): the buffer is
binary iff its first five bytes, decoded as ASCII and lowercased, do not
start with `"solid"`. -/
def isBinaryStl (buf : List ℕ) : Bool :=
  !(startsWithL (toLowerStr (toAsciiChars (buf.take 5))) solidCodes)

/-- `StlParserService.getDefaultAnalysis` (part_005 lines 397-408). -/
def getDefaultAnalysis (msg : String) : FileAnalysis :=
  { volume := fin 0
    surfaceArea := fin 0
    boundingBox := ⟨fin 0, fin 0, fin 0⟩
    triangleCount := 0
    isWatertight := false
    hasErrors := true
    errors := [msg] }

/-- `StlParserService.analyzeStl` (part_005 lines 213-226): dispatch on the
format heuristic; the `try/catch` that turns the binary branch's `throw`
into `getDefaultAnalysis(error.message)` is the `Except` match (the ASCII
branch cannot throw). -/
def analyzeStl (buf : List ℕ) : FileAnalysis :=
  if isBinaryStl buf then
    match analyzeBinaryStl buf with
    | Except.ok a => a
    | Except.error msg => getDefaultAnalysis msg
  else analyzeAsciiStl buf

/-! ### Concrete buffers for the testable properties -/

/-- Little-endian float32 bytes of `0.0`. -/
def f32zeroBytes : List ℕ := [0, 0, 0, 0]

/-- Little-endian float32 bytes of `10.0` (`0x41200000`). -/
def f32tenBytes : List ℕ := [0, 0, 32, 65]

/-- Bytes of a cube-corner coordinate: `10.0` when the flag is set, else
`0.0`. -/
def cornerCoordBytes (b : Bool) : List ℕ := if b then f32tenBytes else f32zeroBytes

/-- A cube corner as a vertex record (x, y, z each 0 or 10 mm). -/
def cornerBytes (v : Bool × Bool × Bool) : List ℕ :=
  cornerCoordBytes v.1 ++ cornerCoordBytes v.2.1 ++ cornerCoordBytes v.2.2

/-- One 50-byte binary STL triangle record: 12 zero normal bytes, three
vertices, 2 attribute bytes. -/
def triangleRecord (a b c : Bool × Bool × Bool) : List ℕ :=
  List.replicate 12 0 ++ cornerBytes a ++ cornerBytes b ++ cornerBytes c ++ [0, 0]

/-- The 12 triangles of the [0,10]³ cube, every face wound outward. -/
def cubeTriangles : List ((Bool × Bool × Bool) × (Bool × Bool × Bool) × (Bool × Bool × Bool)) :=
  [((false, false, false), (false, true, false), (true, true, false)),
   ((false, false, false), (true, true, false), (true, false, false)),
   ((false, false, true), (true, false, true), (true, true, true)),
   ((false, false, true), (true, true, true), (false, true, true)),
   ((false, false, false), (true, false, false), (true, false, true)),
   ((false, false, false), (true, false, true), (false, false, true)),
   ((false, true, false), (false, true, true), (true, true, true)),
   ((false, true, false), (true, true, true), (true, true, false)),
   ((false, false, false), (false, false, true), (false, true, true)),
   ((false, false, false), (false, true, true), (false, true, false)),
   ((true, false, false), (true, true, false), (true, true, true)),
   ((true, false, false), (true, true, true), (true, false, true))]

/-- The 12 cube records, outward wound. -/
def cubeRecs : List (List ℕ) :=
  cubeTriangles.map (fun t => triangleRecord t.1 t.2.1 t.2.2)

/-- The 12 cube records with every winding reversed (second and third
vertices swapped). -/
def cubeRevRecs : List (List ℕ) :=
  cubeTriangles.map (fun t => triangleRecord t.1 t.2.2 t.2.1)

/-- The binary STL encoding of the outward-wound 10 mm cube: 80-byte zero
header (which does not start with `"solid"`), little-endian count 12, then
the 12 records. -/
def cubeBuf : List ℕ := List.replicate 80 0 ++ [12, 0, 0, 0] ++ cubeRecs.flatten

/-- The same cube with every triangle's winding reversed. -/
def cubeRevBuf : List ℕ := List.replicate 80 0 ++ [12, 0, 0, 0] ++ cubeRevRecs.flatten

/-- The decoding of one 50-byte triangle record, as `binaryTriangleStep`
performs it at the record's offset (stated standalone for the
decode-of-encode lemmas). -/
def recStep (rec : List ℕ) (acc : GeoAcc) : GeoAcc :=
  let v0 : Vec3 := ⟨readFloatLE rec 12, readFloatLE rec 16, readFloatLE rec 20⟩
  let v1 : Vec3 := ⟨readFloatLE rec 24, readFloatLE rec 28, readFloatLE rec 32⟩
  let v2 : Vec3 := ⟨readFloatLE rec 36, readFloatLE rec 40, readFloatLE rec 44⟩
  accTriangle (accVertex (accVertex (accVertex acc v0) v1) v2) v0 v1 v2

/-- The analysis pass as a fold over the record list. -/
def recsFold (recs : List (List ℕ)) : GeoAcc :=
  recs.foldl (fun acc rec => recStep rec acc) initAcc

/-! ### Claim-level (spec-worded) definitions for the ASCII decoder -/

/-- The vertex a well-formed `"vertex"` line contributes: its 2nd–4th
whitespace tokens parsed as floats (convenience name shared by the source
embedding and the claim-level decoder). -/
def lineVertex (line : List ℕ) : Vec3 :=
  ⟨parseFloatJs ((wordsWs (toLowerStr (jsTrim line))).getD 1 []),
   parseFloatJs ((wordsWs (toLowerStr (jsTrim line))).getD 2 []),
   parseFloatJs ((wordsWs (toLowerStr (jsTrim line))).getD 3 [])⟩


open JsNum in
/-- The ASCII decode contract as amended claim C5 words it: fold the
trimmed, lowercased lines; a `"vertex"`-starting line with at least 4
whitespace tokens appends its 2nd–4th tokens (parsed as floats) to the
pending accumulator (one with fewer tokens is ignored); an
`"endfacet"`-starting line emits a triangle exactly when 3 vertices are
pending and clears the accumulator in either case. -/
def specTrianglesGo : List (List ℕ) → List Vec3 → List (Vec3 × Vec3 × Vec3)
  | [], _ => []
  | line :: rest, pending =>
    let t := toLowerStr (jsTrim line)
    if startsWithL t vertexCodes then
      if 4 ≤ (wordsWs t).length then
        specTrianglesGo rest (pending ++ [lineVertex line])
      else specTrianglesGo rest pending
    else if startsWithL t endfacetCodes then
      (match pending with
        | [v0, v1, v2] => [(v0, v1, v2)]
        | _ => []) ++ specTrianglesGo rest []
    else specTrianglesGo rest pending

/-- The triangles the amended claim C5 predicts for a buffer. -/
def specTriangles (buf : List ℕ) : List (Vec3 × Vec3 × Vec3) :=
  specTrianglesGo (splitOnNl (toAsciiChars buf)) []

/-- Surface-area accumulation over a triangle list, in emission order. -/
def specAreaSum (ts : List (Vec3 × Vec3 × Vec3)) : JsNum :=
  ts.foldl (fun s t => jadd s (calculateTriangleArea t.1 t.2.1 t.2.2)) (fin 0)

/-- Signed-volume accumulation over a triangle list, in emission order. -/
def specVolSum (ts : List (Vec3 × Vec3 × Vec3)) : JsNum :=
  ts.foldl (fun s t => jadd s (calculateSignedVolume t.1 t.2.1 t.2.2)) (fin 0)

/-- Claim C5 *as stated* (for its counterexample): the claim says EVERY
trimmed, lowercased line starting `"vertex"` appends a pending vertex — with
no minimum-token guard — so its predicted triangle count increments the
pending counter on every vertex line and emits at `"endfacet"` exactly when
3 are pending. -/
def claimLiteralGo : List (List ℕ) → ℕ → ℕ
  | [], _ => 0
  | line :: rest, pending =>
    let t := toLowerStr (jsTrim line)
    if startsWithL t vertexCodes then claimLiteralGo rest (pending + 1)
    else if startsWithL t endfacetCodes then
      if pending = 3 then 1 + claimLiteralGo rest 0 else claimLiteralGo rest 0
    else claimLiteralGo rest pending

/-- The triangle count claim C5's unguarded reading predicts. -/
def claimLiteralTriangleCount (buf : List ℕ) : ℕ :=
  claimLiteralGo (splitOnNl (toAsciiChars buf)) 0

/-- Character codes of a string (ASCII content). -/
def strBytes (s : String) : List ℕ := s.toList.map Char.toNat

/-- The C5 counterexample buffer: an ASCII STL whose facet contains a
malformed `vertex 1 2` line (3 tokens) and three well-formed vertex lines.
The code ignores the malformed line and emits one triangle; the claim's
unguarded reading counts 4 pending vertices and emits none. -/
def c5Buf : List ℕ :=
  strBytes "solid part\nvertex 1 2\nvertex 0 0 0\nvertex 2 0 0\nvertex 0 2 0\nendfacet\nendsolid part"
/-! ## Pricing: theorems -/

theorem jadd_fin (a b : ℚ) : jadd (fin a) (fin b) = fin (a + b) := rfl

theorem jmul_fin (a b : ℚ) : jmul (fin a) (fin b) = fin (a * b) := rfl

theorem jsub_fin (a b : ℚ) : jsub (fin a) (fin b) = fin (a - b) := by
  simp only [jsub, jneg, jadd, sub_eq_add_neg]

theorem jmax_fin (a b : ℚ) : jmax (fin a) (fin b) = fin (max a b) := rfl

theorem round2J_fin (q : ℚ) : round2J (fin q) = fin (round2 q) := by
  simp [round2J, jmul, jround, jdiv, round2]

theorem jmul_nan_left (a : JsNum) : jmul nan a = nan := by cases a <;> rfl

theorem jsub_nan_left (a : JsNum) : jsub nan a = nan := by cases a <;> rfl

theorem jmax_nan_left (a : JsNum) : jmax nan a = nan := by cases a <;> rfl

theorem jadd_fin_nan (q : ℚ) : jadd (fin q) nan = nan := rfl

theorem round2J_nan : round2J nan = nan := rfl

theorem proto_of_lookup (p : String)
    (h : POST_PROCESSING_COSTS p = FeeLookup.protoMember) : p ∈ objectProtoNames := by
  unfold POST_PROCESSING_COSTS at h
  split_ifs at h with h1 h2 h3 h4 h5 h6
  all_goals first | exact h6 | cases h

theorem lookup_of_proto (p : String) (h : p ∈ objectProtoNames) :
    POST_PROCESSING_COSTS p = FeeLookup.protoMember := by
  unfold POST_PROCESSING_COSTS
  split_ifs with h1 h2 h3 h4 h5 h6 <;> try rfl
  all_goals first
    | exact h6 h
    | (subst_vars; revert h; decide)

theorem postFeeLoop_go (P : List String) :
    ∀ q : ℚ, (∀ tag ∈ P, tag ∉ objectProtoNames) →
      P.foldl
        (fun acc p =>
          match POST_PROCESSING_COSTS p with
          | FeeLookup.fee c => jadd acc (fin c)
          | FeeLookup.protoMember => nan
          | FeeLookup.undef => acc)
        (fin q)
      = fin (q + specPostSum P) := by
  induction P with
  | nil => intro q _; simp [specPostSum]
  | cons p ps ih =>
    intro q hnp
    rw [List.foldl_cons]
    rcases hc : POST_PROCESSING_COSTS p with c | _ | _
    · simp only [hc, jadd_fin]
      rw [ih (q + c) (fun t ht => hnp t (by simp [ht]))]
      simp only [specPostSum, List.map_cons, List.sum_cons, hc]
      congr 1
      ring
    · exact absurd (proto_of_lookup p hc) (hnp p (by simp))
    · simp only [hc]
      rw [ih q (fun t ht => hnp t (by simp [ht]))]
      simp only [specPostSum, List.map_cons, List.sum_cons, hc]
      congr 1
      ring

theorem postFeeLoop_fin (P : List String)
    (hnp : ∀ tag ∈ P, tag ∉ objectProtoNames) :
    postFeeLoop P = fin (specPostSum P) := by
  simpa using postFeeLoop_go P 0 hnp

theorem postFeeLoop_from_nan (P : List String) :
    P.foldl
      (fun acc p =>
        match POST_PROCESSING_COSTS p with
        | FeeLookup.fee c => jadd acc (fin c)
        | FeeLookup.protoMember => nan
        | FeeLookup.undef => acc)
      nan
    = nan := by
  induction P with
  | nil => rfl
  | cons p ps ih =>
    rw [List.foldl_cons]
    rcases hc : POST_PROCESSING_COSTS p with c | _ | _ <;> simp only [hc] <;> exact ih

theorem postFeeLoop_nan (P : List String) :
    ∀ a : JsNum, (∃ tag ∈ P, tag ∈ objectProtoNames) →
      P.foldl
        (fun acc p =>
          match POST_PROCESSING_COSTS p with
          | FeeLookup.fee c => jadd acc (fin c)
          | FeeLookup.protoMember => nan
          | FeeLookup.undef => acc)
        a
      = nan := by
  induction P with
  | nil => intro a h; simp at h
  | cons p ps ih =>
    intro a hex
    rw [List.foldl_cons]
    by_cases hp : p ∈ objectProtoNames
    · rw [lookup_of_proto p hp]
      exact postFeeLoop_from_nan ps
    · have hex' : ∃ tag ∈ ps, tag ∈ objectProtoNames := by
        rcases hex with ⟨t, ht, htp⟩
        rcases List.mem_cons.mp ht with rfl | hts
        · exact absurd htp hp
        · exact ⟨t, hts, htp⟩
      rcases hc : POST_PROCESSING_COSTS p with c | _ | _ <;> simp only [hc]
      · exact ih _ hex'
      · exact postFeeLoop_from_nan ps
      · exact ih _ hex'

/-- C1 (amended): for every volume V ≥ 0, pricing profile {B, S, M}, and
validated configuration (integer Q in 1..1000, I in 10..100, tag list P,
duplicates each costed), provided no tag is an `Object.prototype` property
name, `calculatePricing` returns materialCost = round2(E·B·Q), laborCost =
round2((E/30)·15·Q), setupFee = S, postProcessingFee = round2(Q·Σ table
fees, other tags costed 0), discount = round2(0.10·sub) if Q ≥ 10,
round2(0.05·sub) if 5 ≤ Q < 10, else 0, and total = max(round2(sub −
discount), M), where E = V·(I/100)·0.8 + V·0.2 and sub = materialCost +
laborCost + S + postProcessingFee; the stored subtotal field is round2(sub).
The two amendments: the subtotal field is rounded, and a tag naming an
inherited `Object.prototype` member (toString, valueOf, constructor, …) is
NOT costed 0 — the truthy guard fires on the inherited member and
postProcessingFee, subtotal and total come out NaN.  In particular V=10,
B=0.5, S=10, M=25, Q=1, I=20, P=[] gives materialCost=1.80, laborCost=1.80,
subtotal=13.60, discount=0, total=25.00. -/
theorem C1_calculatePricing_spec
    (V B S M : ℚ) (cur : Option String) (Q : ℕ) (I : ℚ) (P : List String)
    (col : String) (lh : ℚ) (ss : Bool)
    (hV : 0 ≤ V) (hQ1 : 1 ≤ Q) (hQ2 : Q ≤ 1000)
    (hI1 : 10 ≤ I) (hI2 : I ≤ 100) :
    ((∀ tag ∈ P, tag ∉ objectProtoNames) →
      calculatePricing V ⟨B, S, M, cur⟩ ⟨Q, col, I, lh, ss, P⟩
        = specPricing V B S M cur Q I P)
    ∧ ((∃ tag ∈ P, tag ∈ objectProtoNames) →
        (calculatePricing V ⟨B, S, M, cur⟩ ⟨Q, col, I, lh, ss, P⟩).postProcessingFee = nan
        ∧ (calculatePricing V ⟨B, S, M, cur⟩ ⟨Q, col, I, lh, ss, P⟩).subtotal = nan
        ∧ (calculatePricing V ⟨B, S, M, cur⟩ ⟨Q, col, I, lh, ss, P⟩).total = nan)
    ∧ ((calculatePricing 10 ⟨1/2, 10, 25, none⟩ ⟨1, "W", 20, 1/5, false, []⟩).materialCost = 1.8
      ∧ (calculatePricing 10 ⟨1/2, 10, 25, none⟩ ⟨1, "W", 20, 1/5, false, []⟩).laborCost = 1.8
      ∧ (calculatePricing 10 ⟨1/2, 10, 25, none⟩ ⟨1, "W", 20, 1/5, false, []⟩).subtotal = fin 13.6
      ∧ (calculatePricing 10 ⟨1/2, 10, 25, none⟩ ⟨1, "W", 20, 1/5, false, []⟩).discount = fin 0
      ∧ (calculatePricing 10 ⟨1/2, 10, 25, none⟩ ⟨1, "W", 20, 1/5, false, []⟩).total = fin 25) := by
  refine ⟨fun hnp => ?_, fun hex => ?_, ?_⟩
  · simp only [calculatePricing, specPricing, specEffectiveVolume, ge_iff_le,
      postFeeLoop_fin P hnp, jmul_fin, round2J_fin, jadd_fin, jsub_fin, jmax_fin]
    rw [mul_comm (specPostSum P) ((Q : ℕ) : ℚ)]
    split_ifs with h10 h5
    · simp only [jmul_fin, round2J_fin, jsub_fin, jmax_fin]
      rw [mul_comm _ (0.1 : ℚ)]
    · simp only [jmul_fin, round2J_fin, jsub_fin, jmax_fin]
      rw [mul_comm _ (0.05 : ℚ)]
    · simp only [jsub_fin, round2J_fin, jmax_fin]
  · have hpf : postFeeLoop P = nan := postFeeLoop_nan P (fin 0) hex
    simp only [calculatePricing, hpf, jmul_nan_left, round2J_nan, jadd_fin_nan,
      jsub_nan_left, jmax_nan_left]
    exact ⟨by trivial, by trivial, by trivial⟩
  · refine ⟨by with_unfolding_all decide, by with_unfolding_all decide,
      by with_unfolding_all decide, by with_unfolding_all decide,
      by with_unfolding_all decide⟩

/-- C1 counterexample, refuting the claim as stated on two counts.
(1) Subtotal rounding: with setup fee S = 0.005, V=0, B=0, M=0, Q=1, I=10,
P=[], the returned subtotal field is round2(0.005) = 0.01, not the field sum
0.005.  (2) Unknown-tag costing: with P=["toString"], a tag outside the fee
table, the prototype-chain lookup returns the inherited truthy
`Object.prototype.toString`, the guard fires, and postProcessingFee is NaN
(and so is total) — not the 0 the claim asserts for tags outside the
table. -/
theorem C1_counterexample :
    ((calculatePricing 0 ⟨0, 1/200, 0, none⟩ ⟨1, "White", 10, 1/5, false, []⟩).postProcessingFee = fin 0
      ∧ (calculatePricing 0 ⟨0, 1/200, 0, none⟩ ⟨1, "White", 10, 1/5, false, []⟩).subtotal
          ≠ fin ((calculatePricing 0 ⟨0, 1/200, 0, none⟩ ⟨1, "White", 10, 1/5, false, []⟩).materialCost
            + (calculatePricing 0 ⟨0, 1/200, 0, none⟩ ⟨1, "White", 10, 1/5, false, []⟩).laborCost
            + (calculatePricing 0 ⟨0, 1/200, 0, none⟩ ⟨1, "White", 10, 1/5, false, []⟩).setupFee
            + 0))
    ∧ ((calculatePricing 0 ⟨0, 0, 0, none⟩ ⟨1, "White", 10, 1/5, false, ["toString"]⟩).postProcessingFee = nan
      ∧ (calculatePricing 0 ⟨0, 0, 0, none⟩ ⟨1, "White", 10, 1/5, false, ["toString"]⟩).postProcessingFee ≠ fin 0
      ∧ (calculatePricing 0 ⟨0, 0, 0, none⟩ ⟨1, "White", 10, 1/5, false, ["toString"]⟩).total = nan) := by
  with_unfolding_all decide

/-- Witness for C1 at V=10, B=1/2, S=10, M=25, Q=1, I=20, P=[]. -/
theorem C1_calculatePricing_witness :
    ((0:ℚ) ≤ 10 ∧ (1:ℕ) ≤ 1 ∧ (1:ℕ) ≤ 1000 ∧ (10:ℚ) ≤ 20 ∧ (20:ℚ) ≤ 100)
    ∧ (((∀ tag ∈ ([] : List String), tag ∉ objectProtoNames) →
          calculatePricing 10 ⟨1/2, 10, 25, none⟩ ⟨1, "White", 20, 1/5, false, []⟩
            = specPricing 10 (1/2) 10 25 none 1 20 [])
      ∧ ((∃ tag ∈ ([] : List String), tag ∈ objectProtoNames) →
          (calculatePricing 10 ⟨1/2, 10, 25, none⟩ ⟨1, "White", 20, 1/5, false, []⟩).postProcessingFee = nan
          ∧ (calculatePricing 10 ⟨1/2, 10, 25, none⟩ ⟨1, "White", 20, 1/5, false, []⟩).subtotal = nan
          ∧ (calculatePricing 10 ⟨1/2, 10, 25, none⟩ ⟨1, "White", 20, 1/5, false, []⟩).total = nan)
      ∧ ((calculatePricing 10 ⟨1/2, 10, 25, none⟩ ⟨1, "W", 20, 1/5, false, []⟩).materialCost = 1.8
        ∧ (calculatePricing 10 ⟨1/2, 10, 25, none⟩ ⟨1, "W", 20, 1/5, false, []⟩).laborCost = 1.8
        ∧ (calculatePricing 10 ⟨1/2, 10, 25, none⟩ ⟨1, "W", 20, 1/5, false, []⟩).subtotal = fin 13.6
        ∧ (calculatePricing 10 ⟨1/2, 10, 25, none⟩ ⟨1, "W", 20, 1/5, false, []⟩).discount = fin 0
        ∧ (calculatePricing 10 ⟨1/2, 10, 25, none⟩ ⟨1, "W", 20, 1/5, false, []⟩).total = fin 25)) :=
  ⟨⟨by norm_num, by norm_num, by norm_num, by norm_num, by norm_num⟩,
    C1_calculatePricing_spec 10 (1/2) 10 25 none 1 20 [] "White" (1/5) false
      (by norm_num) (by norm_num) (by norm_num) (by norm_num) (by norm_num)⟩

/-- C6: for every V ≥ 0 and validated configuration (layerHeight in
[0.05, 0.5], I in [10, 100], Q in 1..1000), `calculatePrintTime` returns
round1((V/30)·(0.2/layerHeight)·(I/20)·(1.3 if supports else 1.0)·Q). -/
theorem C6_calculatePrintTime_spec
    (V lh I : ℚ) (ss : Bool) (Q : ℕ) (col : String) (P : List String)
    (hV : 0 ≤ V) (hlh1 : 0.05 ≤ lh) (hlh2 : lh ≤ 0.5)
    (hI1 : 10 ≤ I) (hI2 : I ≤ 100) (hQ1 : 1 ≤ Q) (hQ2 : Q ≤ 1000) :
    calculatePrintTime V ⟨Q, col, I, lh, ss, P⟩ =
      round1 (V / 30 * (0.2 / lh) * (I / 20) * (if ss then 1.3 else 1) * Q) := rfl

/-- Witness for C6 at V=10, layerHeight=0.2, I=20, no supports, Q=1. -/
theorem C6_calculatePrintTime_witness :
    ((0:ℚ) ≤ 10 ∧ (0.05:ℚ) ≤ 1/5 ∧ (1/5:ℚ) ≤ 0.5 ∧ (10:ℚ) ≤ 20 ∧ (20:ℚ) ≤ 100
      ∧ (1:ℕ) ≤ 1 ∧ (1:ℕ) ≤ 1000)
    ∧ calculatePrintTime 10 ⟨1, "White", 20, 1/5, false, []⟩ =
        round1 (10 / 30 * (0.2 / (1/5)) * (20 / 20) * (if false then 1.3 else 1) * (1:ℕ)) :=
  ⟨⟨by norm_num, by norm_num, by norm_num, by norm_num, by norm_num, by norm_num, by norm_num⟩,
    C6_calculatePrintTime_spec 10 (1/5) 20 false 1 "White" []
      (by norm_num) (by norm_num) (by norm_num) (by norm_num) (by norm_num)
      (by norm_num) (by norm_num)⟩

/-- C7: for every print-time estimate h ≥ 0, lead time L and configuration,
`calculateDeliveryDays` returns L + ⌈h/8⌉ + (1 if postProcessing non-empty
else 0) + 2, and is monotonically non-decreasing in L, in ⌈h/8⌉, and when
postProcessing goes from empty to non-empty. -/
theorem C7_calculateDeliveryDays_spec
    (h h' : ℚ) (L L' : ℤ) (cfg : PrintConfiguration) (ps : List String)
    (hh : 0 ≤ h) :
    calculateDeliveryDays h L cfg
        = L + ⌈h / 8⌉ + (if cfg.postProcessing ≠ [] then 1 else 0) + 2
    ∧ (L ≤ L' → calculateDeliveryDays h L cfg ≤ calculateDeliveryDays h L' cfg)
    ∧ (⌈h / 8⌉ ≤ ⌈h' / 8⌉ → calculateDeliveryDays h L cfg ≤ calculateDeliveryDays h' L cfg)
    ∧ (cfg.postProcessing = [] → ps ≠ [] →
        calculateDeliveryDays h L cfg ≤ calculateDeliveryDays h L { cfg with postProcessing := ps }) := by
  unfold calculateDeliveryDays
  dsimp only
  refine ⟨?_, ?_, ?_, ?_⟩
  · rcases hps : cfg.postProcessing with _ | ⟨p, rest⟩ <;> simp [hps]
  · intro hL
    by_cases hp : cfg.postProcessing.length > 0 <;> simp [hp] <;> omega
  · intro hc
    by_cases hp : cfg.postProcessing.length > 0 <;> simp [hp] <;> omega
  · intro he hne
    rcases hps : ps with _ | ⟨p, rest⟩
    · exact absurd hps hne
    · simp [he, hps]

/-- Witness for C7 at h=8, h'=16, L=3, L'=4, empty post-processing,
ps=["sanding"]. -/
theorem C7_calculateDeliveryDays_witness :
    (0:ℚ) ≤ 8
    ∧ (calculateDeliveryDays 8 3 ⟨1, "W", 20, 1/5, false, []⟩
          = 3 + ⌈(8:ℚ) / 8⌉
            + (if (⟨1, "W", 20, 1/5, false, []⟩ : PrintConfiguration).postProcessing ≠ [] then 1 else 0) + 2
      ∧ ((3:ℤ) ≤ 4 → calculateDeliveryDays 8 3 ⟨1, "W", 20, 1/5, false, []⟩
            ≤ calculateDeliveryDays 8 4 ⟨1, "W", 20, 1/5, false, []⟩)
      ∧ (⌈(8:ℚ) / 8⌉ ≤ ⌈(16:ℚ) / 8⌉ → calculateDeliveryDays 8 3 ⟨1, "W", 20, 1/5, false, []⟩
            ≤ calculateDeliveryDays 16 3 ⟨1, "W", 20, 1/5, false, []⟩)
      ∧ ((⟨1, "W", 20, 1/5, false, []⟩ : PrintConfiguration).postProcessing = [] →
          (["sanding"] : List String) ≠ [] →
          calculateDeliveryDays 8 3 ⟨1, "W", 20, 1/5, false, []⟩
            ≤ calculateDeliveryDays 8 3 ⟨1, "W", 20, 1/5, false, ["sanding"]⟩)) :=
  ⟨by norm_num,
    C7_calculateDeliveryDays_spec 8 16 3 4 ⟨1, "W", 20, 1/5, false, []⟩ ["sanding"] (by norm_num)⟩

/-- C8: a stored analysis with hasErrors=false and volume exactly 0 is read
through the falsy-or default `file.analysis?.volume || 100`, so the quote is
computed with the fallback volume 100 cm³ — the placeholder is not limited
to missing analyses. -/
theorem C8_createQuote_zero_volume
    (a : StoredFileAnalysis) (m : Material) (cfg : PrintConfiguration)
    (hE : a.hasErrors = false) (hv : a.volume = 0)
    (hc : cfg.color ∈ m.colorOptions) :
    createQuoteCompute (some a) m cfg =
      Except.ok (calculatePricing 100 m.pricing cfg, calculatePrintTime 100 cfg,
        calculateDeliveryDays (calculatePrintTime 100 cfg) m.leadTimeDays cfg) := by
  simp [createQuoteCompute, hE, hv, hc]

/-- Witness for C8 at a zero-volume error-free analysis. -/
theorem C8_createQuote_zero_volume_witness :
    ((⟨0, false⟩ : StoredFileAnalysis).hasErrors = false
      ∧ (⟨0, false⟩ : StoredFileAnalysis).volume = 0
      ∧ "White" ∈ (⟨⟨1, 1, 1, none⟩, ["White"], 1⟩ : Material).colorOptions)
    ∧ createQuoteCompute (some ⟨0, false⟩) ⟨⟨1, 1, 1, none⟩, ["White"], 1⟩
          ⟨1, "White", 20, 1/5, false, []⟩ =
        Except.ok (calculatePricing 100 (⟨⟨1, 1, 1, none⟩, ["White"], 1⟩ : Material).pricing
            ⟨1, "White", 20, 1/5, false, []⟩,
          calculatePrintTime 100 ⟨1, "White", 20, 1/5, false, []⟩,
          calculateDeliveryDays (calculatePrintTime 100 ⟨1, "White", 20, 1/5, false, []⟩)
            (⟨⟨1, 1, 1, none⟩, ["White"], 1⟩ : Material).leadTimeDays
            ⟨1, "White", 20, 1/5, false, []⟩) :=
  ⟨⟨rfl, rfl, by simp⟩,
    C8_createQuote_zero_volume ⟨0, false⟩ ⟨⟨1, 1, 1, none⟩, ["White"], 1⟩
      ⟨1, "White", 20, 1/5, false, []⟩ rfl rfl (by simp)⟩

theorem byteAt_append_add (l r : List ℕ) (i : ℕ) :
    byteAt (l ++ r) (l.length + i) = byteAt r i := by
  unfold byteAt
  rw [List.getD_append_right l r 0 (l.length + i) (Nat.le_add_right _ _)]
  congr 2
  omega

theorem byteAt_append_left (l r : List ℕ) (i : ℕ) (h : i < l.length) :
    byteAt (l ++ r) i = byteAt l i := by
  unfold byteAt
  rw [List.getD_append l r 0 i h]

theorem byteAt_flatten (recs : List (List ℕ)) (j : ℕ)
    (h50 : ∀ rec ∈ recs, rec.length = 50) (hj : j < 50) :
    ∀ n, n < recs.length →
      byteAt recs.flatten (n * 50 + j) = byteAt (recs.getD n []) j := by
  induction recs with
  | nil => intro n hn; simp at hn
  | cons rec rest ih =>
    intro n hn
    have hrec : rec.length = 50 := h50 rec (by simp)
    cases n with
    | zero =>
      simp only [List.flatten_cons, Nat.zero_mul, Nat.zero_add, List.getD_cons_zero]
      exact byteAt_append_left rec rest.flatten j (by omega)
    | succ m =>
      have e : (m + 1) * 50 + j = rec.length + (m * 50 + j) := by omega
      simp only [List.flatten_cons, List.getD_cons_succ, e]
      rw [byteAt_append_add]
      exact ih (fun r hr => h50 r (by simp [hr])) m (by simpa using hn)

theorem flatten_length_50 (recs : List (List ℕ))
    (h50 : ∀ rec ∈ recs, rec.length = 50) :
    recs.flatten.length = 50 * recs.length := by
  induction recs with
  | nil => simp
  | cons rec rest ih =>
    have hrec : rec.length = 50 := h50 rec (by simp)
    simp only [List.flatten_cons, List.length_append, List.length_cons, hrec,
      ih (fun r hr => h50 r (by simp [hr]))]
    ring

theorem readFloatLE_encode (pre : List ℕ) (recs : List (List ℕ)) (n j : ℕ)
    (h50 : ∀ rec ∈ recs, rec.length = 50) (hj : j + 3 < 50) (hn : n < recs.length) :
    readFloatLE (pre ++ recs.flatten) (pre.length + (n * 50 + j))
      = readFloatLE (recs.getD n []) j := by
  unfold readFloatLE readUInt32LE
  have e1 : pre.length + (n * 50 + j) + 1 = pre.length + (n * 50 + (j + 1)) := by omega
  have e2 : pre.length + (n * 50 + j) + 2 = pre.length + (n * 50 + (j + 2)) := by omega
  have e3 : pre.length + (n * 50 + j) + 3 = pre.length + (n * 50 + (j + 3)) := by omega
  rw [e1, e2, e3, byteAt_append_add, byteAt_append_add, byteAt_append_add, byteAt_append_add,
    byteAt_flatten recs j h50 (by omega) n hn,
    byteAt_flatten recs (j + 1) h50 (by omega) n hn,
    byteAt_flatten recs (j + 2) h50 (by omega) n hn,
    byteAt_flatten recs (j + 3) h50 (by omega) n hn]

theorem binaryTriangleStep_encode (pre : List ℕ) (recs : List (List ℕ)) (acc : GeoAcc) (n : ℕ)
    (hpre : pre.length = 84) (h50 : ∀ rec ∈ recs, rec.length = 50) (hn : n < recs.length) :
    binaryTriangleStep (pre ++ recs.flatten) acc n = recStep (recs.getD n []) acc := by
  unfold binaryTriangleStep recStep
  dsimp only
  have e : ∀ c : ℕ, 84 + n * 50 + c = pre.length + (n * 50 + c) := by intro c; omega
  rw [e 12, e 16, e 20, e 24, e 28, e 32, e 36, e 40, e 44,
    readFloatLE_encode pre recs n 12 h50 (by omega) hn,
    readFloatLE_encode pre recs n 16 h50 (by omega) hn,
    readFloatLE_encode pre recs n 20 h50 (by omega) hn,
    readFloatLE_encode pre recs n 24 h50 (by omega) hn,
    readFloatLE_encode pre recs n 28 h50 (by omega) hn,
    readFloatLE_encode pre recs n 32 h50 (by omega) hn,
    readFloatLE_encode pre recs n 36 h50 (by omega) hn,
    readFloatLE_encode pre recs n 40 h50 (by omega) hn,
    readFloatLE_encode pre recs n 44 h50 (by omega) hn]

theorem binaryPass_encode (pre : List ℕ) (recs : List (List ℕ))
    (hpre : pre.length = 84) (h50 : ∀ rec ∈ recs, rec.length = 50) :
    ∀ n, n ≤ recs.length →
      binaryPass (pre ++ recs.flatten) n = recsFold (recs.take n) := by
  intro n
  induction n with
  | zero => intro _; rfl
  | succ m ih =>
    intro hm
    have hmlt : m < recs.length := by omega
    unfold binaryPass at *
    rw [List.range_succ, List.foldl_append, List.foldl_cons, List.foldl_nil,
      ih (by omega), binaryTriangleStep_encode pre recs _ m hpre h50 hmlt]
    unfold recsFold
    rw [List.take_succ, List.foldl_append]
    have hgm : recs[m]? = some (recs.getD m []) := by
      rw [List.getD_eq_getElem _ _ hmlt]
      simp [hmlt]
    rw [hgm]
    simp

theorem cubeRecs_len50 : ∀ rec ∈ cubeRecs, rec.length = 50 := by decide

theorem cubeRevRecs_len50 : ∀ rec ∈ cubeRevRecs, rec.length = 50 := by decide

theorem cubeBuf_decomp : cubeBuf = (List.replicate 80 0 ++ [12, 0, 0, 0]) ++ cubeRecs.flatten := by
  simp [cubeBuf, List.append_assoc]

theorem cubeRevBuf_decomp :
    cubeRevBuf = (List.replicate 80 0 ++ [12, 0, 0, 0]) ++ cubeRevRecs.flatten := by
  simp [cubeRevBuf, List.append_assoc]

theorem cubePass12 : binaryPass cubeBuf 12 = recsFold cubeRecs := by
  rw [cubeBuf_decomp, binaryPass_encode _ _ (by simp) cubeRecs_len50 12 (by decide)]
  rw [show (12 : ℕ) = cubeRecs.length from by decide, List.take_length]

theorem cubeRevPass12 : binaryPass cubeRevBuf 12 = recsFold cubeRevRecs := by
  rw [cubeRevBuf_decomp, binaryPass_encode _ _ (by simp) cubeRevRecs_len50 12 (by decide)]
  rw [show (12 : ℕ) = cubeRevRecs.length from by decide, List.take_length]

open JsNum in
set_option maxRecDepth 4000 in
theorem recsFoldCube :
    recsFold cubeRecs = ⟨fin 0, fin 0, fin 0, fin 10, fin 10, fin 10, fin 1000, fin 600⟩ := by
  with_unfolding_all decide

open JsNum in
set_option maxRecDepth 4000 in
theorem recsFoldCubeRev :
    recsFold cubeRevRecs = ⟨fin 0, fin 0, fin 0, fin 10, fin 10, fin 10, fin (-1000), fin 600⟩ := by
  with_unfolding_all decide


theorem cubeBuf_length : cubeBuf.length = 684 := by
  rw [cubeBuf_decomp, List.length_append, flatten_length_50 _ cubeRecs_len50]
  decide

theorem cubeRevBuf_length : cubeRevBuf.length = 684 := by
  rw [cubeRevBuf_decomp, List.length_append, flatten_length_50 _ cubeRevRecs_len50]
  decide

theorem cubeAnalyzeBinary :
    analyzeBinaryStl cubeBuf = Except.ok (mkAnalysis (recsFold cubeRecs) 12) := by
  have hcnt : readUInt32LE cubeBuf 80 = 12 := by with_unfolding_all decide
  unfold analyzeBinaryStl
  simp only [cubeBuf_length, hcnt, cubePass12]
  norm_num

theorem cubeRevAnalyzeBinary :
    analyzeBinaryStl cubeRevBuf = Except.ok (mkAnalysis (recsFold cubeRevRecs) 12) := by
  have hcnt : readUInt32LE cubeRevBuf 80 = 12 := by with_unfolding_all decide
  unfold analyzeBinaryStl
  simp only [cubeRevBuf_length, hcnt, cubeRevPass12]
  norm_num

open JsNum in
set_option maxRecDepth 4000 in
/-- C4: the binary STL encoding of the closed, outward-wound 10 mm cube
(12 triangles) analyzes to volume=1.00 cm³, surfaceArea=6.00 cm²,
boundingBox={10,10,10}, triangleCount=12, isWatertight=true,
hasErrors=false; reversing every winding negates the accumulated signed
volume sum (1000 mm³ → −1000 mm³), turns isWatertight false, and leaves
|volume|, surfaceArea, boundingBox and triangleCount unchanged. -/
theorem C4_cube_analysis :
    analyzeStl cubeBuf =
      { volume := fin 1, surfaceArea := fin 6,
        boundingBox := ⟨fin 10, fin 10, fin 10⟩,
        triangleCount := 12, isWatertight := true, hasErrors := false, errors := [] }
    ∧ analyzeStl cubeRevBuf =
      { volume := fin 1, surfaceArea := fin 6,
        boundingBox := ⟨fin 10, fin 10, fin 10⟩,
        triangleCount := 12, isWatertight := false, hasErrors := false, errors := [] }
    ∧ (binaryPass cubeRevBuf 12).totalVolume = jneg ((binaryPass cubeBuf 12).totalVolume)
    ∧ (binaryPass cubeBuf 12).totalVolume = fin 1000
    ∧ (binaryPass cubeRevBuf 12).totalVolume = fin (-1000) := by
  have hbin : isBinaryStl cubeBuf = true := by with_unfolding_all decide
  have hbinR : isBinaryStl cubeRevBuf = true := by with_unfolding_all decide
  refine ⟨?_, ?_, ?_, ?_, ?_⟩
  · unfold analyzeStl
    rw [hbin, if_pos rfl, cubeAnalyzeBinary, recsFoldCube]
    with_unfolding_all decide
  · unfold analyzeStl
    rw [hbinR, if_pos rfl, cubeRevAnalyzeBinary, recsFoldCubeRev]
    with_unfolding_all decide
  · rw [cubePass12, cubeRevPass12, recsFoldCube, recsFoldCubeRev]
    with_unfolding_all decide
  · rw [cubePass12, recsFoldCube]
  · rw [cubeRevPass12, recsFoldCubeRev]


theorem analyzeAscii_no_errors (buf : List ℕ) :
    (analyzeAsciiStl buf).hasErrors = false ∧ (analyzeAsciiStl buf).errors = [] :=
  ⟨rfl, rfl⟩

theorem analyzeBinary_ok_no_errors (buf : List ℕ) (a : FileAnalysis)
    (h : analyzeBinaryStl buf = Except.ok a) :
    a.hasErrors = false ∧ a.errors = [] := by
  unfold analyzeBinaryStl at h
  dsimp only at h
  split_ifs at h
  all_goals cases h
  all_goals exact ⟨rfl, rfl⟩

/-- C3: every `analyzeStl` result satisfies: hasErrors=true implies all
numeric fields zero, isWatertight=false and a non-empty error list;
hasErrors=false implies no errors.  `analyzeStl` is a total function of the
buffer — every internal failure is already converted to the zeroed
hasErrors=true record, never propagated. -/
theorem C3_analyzeStl_invariant (buf : List ℕ) :
    ((analyzeStl buf).hasErrors = true →
      (analyzeStl buf).volume = JsNum.fin 0
      ∧ (analyzeStl buf).surfaceArea = JsNum.fin 0
      ∧ (analyzeStl buf).boundingBox = ⟨JsNum.fin 0, JsNum.fin 0, JsNum.fin 0⟩
      ∧ (analyzeStl buf).triangleCount = 0
      ∧ (analyzeStl buf).isWatertight = false
      ∧ (analyzeStl buf).errors ≠ [])
    ∧ ((analyzeStl buf).hasErrors = false → (analyzeStl buf).errors = []) := by
  unfold analyzeStl
  cases hb : isBinaryStl buf with
  | false =>
    simp only [Bool.false_eq_true, if_false]
    refine ⟨fun h => ?_, fun _ => (analyzeAscii_no_errors buf).2⟩
    rw [(analyzeAscii_no_errors buf).1] at h
    cases h
  | true =>
    simp only [if_true]
    cases hok : analyzeBinaryStl buf with
    | error msg =>
      exact ⟨fun _ => ⟨rfl, rfl, rfl, rfl, rfl, by simp [getDefaultAnalysis]⟩, fun h => by cases h⟩
    | ok a =>
      refine ⟨fun h => ?_, fun _ => (analyzeBinary_ok_no_errors buf a hok).2⟩
      rw [(analyzeBinary_ok_no_errors buf a hok).1] at h
      cases h

/-- C10: `analyzeStl` is deterministic — it is a pure function of the input
bytes (the embedding is total and reads no other state), so identical
buffers give identical results. -/
theorem C10_analyzeStl_deterministic (b1 b2 : List ℕ) (h : b1 = b2) :
    analyzeStl b1 = analyzeStl b2 := by rw [h]

theorem C10_analyzeStl_deterministic_witness :
    ([] : List ℕ) = ([] : List ℕ) ∧ analyzeStl [] = analyzeStl [] :=
  ⟨rfl, C10_analyzeStl_deterministic [] [] rfl⟩


/-- C2: for every byte buffer classified Binary, the analysis fails (zeroed,
hasErrors=true, non-empty errors) iff the length is < 84 or < 84 + 50·N for
N the u32 at offset 80; otherwise it succeeds with hasErrors=false and
triangleCount = N. -/
theorem C2_binary_error_iff (buf : List ℕ) (hbytes : ∀ b ∈ buf, b < 256)
    (hbin : isBinaryStl buf = true) :
    (((analyzeStl buf).hasErrors = true
        ∧ (analyzeStl buf).errors ≠ []
        ∧ (analyzeStl buf).volume = JsNum.fin 0
        ∧ (analyzeStl buf).surfaceArea = JsNum.fin 0
        ∧ (analyzeStl buf).boundingBox = ⟨JsNum.fin 0, JsNum.fin 0, JsNum.fin 0⟩
        ∧ (analyzeStl buf).triangleCount = 0)
      ↔ (buf.length < 84 ∨ buf.length < 84 + 50 * readUInt32LE buf 80))
    ∧ (¬ (buf.length < 84 ∨ buf.length < 84 + 50 * readUInt32LE buf 80) →
        (analyzeStl buf).hasErrors = false
        ∧ (analyzeStl buf).triangleCount = readUInt32LE buf 80) := by
  unfold analyzeStl
  rw [hbin, if_pos rfl]
  unfold analyzeBinaryStl
  dsimp only
  split_ifs with h1 h2
  · refine ⟨⟨fun _ => Or.inl h1, fun _ => ⟨rfl, ?_, rfl, rfl, rfl, rfl⟩⟩,
      fun hno => absurd (Or.inl h1) hno⟩
    simp [getDefaultAnalysis]
  · refine ⟨⟨fun _ => Or.inr (by omega), fun _ => ⟨rfl, ?_, rfl, rfl, rfl, rfl⟩⟩,
      fun hno => absurd (Or.inr (by omega)) hno⟩
    simp [getDefaultAnalysis]
  · refine ⟨⟨fun hc => absurd hc.1 (by simp [mkAnalysis]), fun hor => ?_⟩,
      fun _ => ⟨rfl, rfl⟩⟩
    exfalso
    rcases hor with hl | hl
    · exact h1 hl
    · exact h2 (by omega)


theorem ascii_fold_no_vertex (lines : List (List ℕ))
    (h : ∀ l ∈ lines, startsWithL (toLowerStr (jsTrim l)) vertexCodes = false) :
    ∀ g c, lines.foldl asciiLineStep ⟨g, c, []⟩ = ⟨g, c, []⟩ := by
  induction lines with
  | nil => intro g c; rfl
  | cons l rest ih =>
    intro g c
    rw [List.foldl_cons]
    have hl : startsWithL (toLowerStr (jsTrim l)) vertexCodes = false := h l (by simp)
    have hstep : asciiLineStep ⟨g, c, []⟩ l = ⟨g, c, []⟩ := by
      unfold asciiLineStep
      dsimp only
      rw [hl]
      simp only [Bool.false_eq_true, if_false]
      split_ifs <;> rfl
    rw [hstep]
    exact ih (fun l hm => h l (by simp [hm])) g c

open JsNum in
theorem mkAnalysis_initAcc :
    mkAnalysis initAcc 0 =
      ⟨fin 0, fin 0, ⟨negInf, negInf, negInf⟩, 0, false, false, []⟩ := by
  with_unfolding_all decide

/-- C9: an input that decodes to zero vertices — a binary-classified buffer
of length ≥ 84 with triangle count 0, or an ASCII-classified buffer with no
vertex lines — yields hasErrors=false, volume=0, surfaceArea=0,
triangleCount=0, isWatertight=false, and a bounding box whose components are
negative infinity (−Infinity − Infinity from the untouched accumulators),
not 0. -/
theorem C9_zero_vertices (buf1 buf2 : List ℕ)
    (hbin : isBinaryStl buf1 = true) (hlen : 84 ≤ buf1.length)
    (hcnt : readUInt32LE buf1 80 = 0)
    (hascii : isBinaryStl buf2 = false)
    (hnov : ∀ l ∈ splitOnNl (toAsciiChars buf2),
      startsWithL (toLowerStr (jsTrim l)) vertexCodes = false) :
    analyzeStl buf1 =
      ⟨JsNum.fin 0, JsNum.fin 0, ⟨JsNum.negInf, JsNum.negInf, JsNum.negInf⟩, 0, false, false, []⟩
    ∧ analyzeStl buf2 =
      ⟨JsNum.fin 0, JsNum.fin 0, ⟨JsNum.negInf, JsNum.negInf, JsNum.negInf⟩, 0, false, false, []⟩ := by
  constructor
  · unfold analyzeStl
    rw [hbin, if_pos rfl]
    unfold analyzeBinaryStl
    dsimp only
    rw [hcnt]
    rw [if_neg (by omega), if_neg (by omega)]
    rw [show binaryPass buf1 0 = initAcc from rfl, mkAnalysis_initAcc]
  · unfold analyzeStl
    rw [hascii, if_neg (by simp)]
    unfold analyzeAsciiStl
    dsimp only
    rw [ascii_fold_no_vertex _ hnov initAcc 0]
    exact mkAnalysis_initAcc


theorem asciiLineStep_vertex_push (g : GeoAcc) (c : ℕ) (vs : List Vec3) (line : List ℕ)
    (hv : startsWithL (toLowerStr (jsTrim line)) vertexCodes = true)
    (hp : 4 ≤ (wordsWs (toLowerStr (jsTrim line))).length) :
    asciiLineStep ⟨g, c, vs⟩ line = ⟨accVertex g (lineVertex line), c, vs ++ [lineVertex line]⟩ := by
  unfold asciiLineStep lineVertex
  dsimp only
  rw [hv, if_pos rfl, if_pos hp]

theorem asciiLineStep_vertex_short (g : GeoAcc) (c : ℕ) (vs : List Vec3) (line : List ℕ)
    (hv : startsWithL (toLowerStr (jsTrim line)) vertexCodes = true)
    (hp : ¬ 4 ≤ (wordsWs (toLowerStr (jsTrim line))).length) :
    asciiLineStep ⟨g, c, vs⟩ line = ⟨g, c, vs⟩ := by
  unfold asciiLineStep
  dsimp only
  rw [hv, if_pos rfl, if_neg hp]

theorem asciiLineStep_endfacet3 (g : GeoAcc) (c : ℕ) (v0 v1 v2 : Vec3) (line : List ℕ)
    (hv : startsWithL (toLowerStr (jsTrim line)) vertexCodes = false)
    (he : startsWithL (toLowerStr (jsTrim line)) endfacetCodes = true) :
    asciiLineStep ⟨g, c, [v0, v1, v2]⟩ line = ⟨accTriangle g v0 v1 v2, c + 1, []⟩ := by
  unfold asciiLineStep
  dsimp only
  rw [hv, he]
  rfl

theorem asciiLineStep_endfacet_other (g : GeoAcc) (c : ℕ) (vs : List Vec3) (line : List ℕ)
    (hv : startsWithL (toLowerStr (jsTrim line)) vertexCodes = false)
    (he : startsWithL (toLowerStr (jsTrim line)) endfacetCodes = true)
    (h3 : ∀ v0 v1 v2 : Vec3, vs ≠ [v0, v1, v2]) :
    asciiLineStep ⟨g, c, vs⟩ line = ⟨g, c, []⟩ := by
  unfold asciiLineStep
  dsimp only
  rw [hv, he]
  simp only [Bool.false_eq_true, if_false, if_pos rfl]
  rcases vs with _ | ⟨a, _ | ⟨b, _ | ⟨d, _ | ⟨e, r⟩⟩⟩⟩ <;> first | rfl | exact absurd rfl (h3 _ _ _)

theorem asciiLineStep_other (g : GeoAcc) (c : ℕ) (vs : List Vec3) (line : List ℕ)
    (hv : startsWithL (toLowerStr (jsTrim line)) vertexCodes = false)
    (he : startsWithL (toLowerStr (jsTrim line)) endfacetCodes = false) :
    asciiLineStep ⟨g, c, vs⟩ line = ⟨g, c, vs⟩ := by
  unfold asciiLineStep
  dsimp only
  rw [hv, he]
  rfl


theorem accVertex_totalSurfaceArea (g : GeoAcc) (v : Vec3) :
    (accVertex g v).totalSurfaceArea = g.totalSurfaceArea := rfl

theorem accVertex_totalVolume (g : GeoAcc) (v : Vec3) :
    (accVertex g v).totalVolume = g.totalVolume := rfl

theorem specGo_vertex_push (line : List ℕ) (rest : List (List ℕ)) (vs : List Vec3)
    (hv : startsWithL (toLowerStr (jsTrim line)) vertexCodes = true)
    (hp : 4 ≤ (wordsWs (toLowerStr (jsTrim line))).length) :
    specTrianglesGo (line :: rest) vs = specTrianglesGo rest (vs ++ [lineVertex line]) := by
  rw [specTrianglesGo.eq_def]
  dsimp only
  rw [hv, if_pos rfl, if_pos hp]

theorem specGo_vertex_short (line : List ℕ) (rest : List (List ℕ)) (vs : List Vec3)
    (hv : startsWithL (toLowerStr (jsTrim line)) vertexCodes = true)
    (hp : ¬ 4 ≤ (wordsWs (toLowerStr (jsTrim line))).length) :
    specTrianglesGo (line :: rest) vs = specTrianglesGo rest vs := by
  rw [specTrianglesGo.eq_def]
  dsimp only
  rw [hv, if_pos rfl, if_neg hp]

theorem specGo_endfacet3 (line : List ℕ) (rest : List (List ℕ)) (a b d : Vec3)
    (hv : startsWithL (toLowerStr (jsTrim line)) vertexCodes = false)
    (he : startsWithL (toLowerStr (jsTrim line)) endfacetCodes = true) :
    specTrianglesGo (line :: rest) [a, b, d] = (a, b, d) :: specTrianglesGo rest [] := by
  rw [specTrianglesGo.eq_def]
  dsimp only
  rw [hv, he]
  simp

theorem specGo_endfacet_other (line : List ℕ) (rest : List (List ℕ)) (vs : List Vec3)
    (hv : startsWithL (toLowerStr (jsTrim line)) vertexCodes = false)
    (he : startsWithL (toLowerStr (jsTrim line)) endfacetCodes = true)
    (h3 : ∀ a b d : Vec3, vs ≠ [a, b, d]) :
    specTrianglesGo (line :: rest) vs = specTrianglesGo rest [] := by
  rw [specTrianglesGo.eq_def]
  dsimp only
  rw [hv, he]
  simp only [Bool.false_eq_true, if_false, if_pos rfl]
  rcases vs with _ | ⟨a, _ | ⟨b, _ | ⟨d, _ | ⟨e, r⟩⟩⟩⟩
  · simp
  · simp
  · simp
  · exact absurd rfl (h3 _ _ _)
  · simp

theorem specGo_other (line : List ℕ) (rest : List (List ℕ)) (vs : List Vec3)
    (hv : startsWithL (toLowerStr (jsTrim line)) vertexCodes = false)
    (he : startsWithL (toLowerStr (jsTrim line)) endfacetCodes = false) :
    specTrianglesGo (line :: rest) vs = specTrianglesGo rest vs := by
  rw [specTrianglesGo.eq_def]
  dsimp only
  rw [hv, he]
  rfl

theorem ascii_fold_spec (lines : List (List ℕ)) :
    ∀ g : GeoAcc, ∀ c : ℕ, ∀ vs : List Vec3,
      (lines.foldl asciiLineStep ⟨g, c, vs⟩).triangleCount
          = c + (specTrianglesGo lines vs).length
      ∧ (lines.foldl asciiLineStep ⟨g, c, vs⟩).geo.totalSurfaceArea
          = (specTrianglesGo lines vs).foldl
              (fun s t => jadd s (calculateTriangleArea t.1 t.2.1 t.2.2)) g.totalSurfaceArea
      ∧ (lines.foldl asciiLineStep ⟨g, c, vs⟩).geo.totalVolume
          = (specTrianglesGo lines vs).foldl
              (fun s t => jadd s (calculateSignedVolume t.1 t.2.1 t.2.2)) g.totalVolume := by
  induction lines with
  | nil =>
    intro g c vs
    exact ⟨by simp [specTrianglesGo], rfl, rfl⟩
  | cons line rest ih =>
    intro g c vs
    rw [List.foldl_cons]
    by_cases hv : startsWithL (toLowerStr (jsTrim line)) vertexCodes = true
    · by_cases hp : 4 ≤ (wordsWs (toLowerStr (jsTrim line))).length
      · rw [asciiLineStep_vertex_push g c vs line hv hp,
          specGo_vertex_push line rest vs hv hp]
        have := ih (accVertex g (lineVertex line)) c (vs ++ [lineVertex line])
        rw [accVertex_totalSurfaceArea, accVertex_totalVolume] at this
        exact this
      · rw [asciiLineStep_vertex_short g c vs line hv hp,
          specGo_vertex_short line rest vs hv hp]
        exact ih g c vs
    · have hv' : startsWithL (toLowerStr (jsTrim line)) vertexCodes = false := by
        simpa using hv
      by_cases he : startsWithL (toLowerStr (jsTrim line)) endfacetCodes = true
      · by_cases h3 : ∃ a b d : Vec3, vs = [a, b, d]
        · obtain ⟨a, b, d, rfl⟩ := h3
          rw [asciiLineStep_endfacet3 g c a b d line hv' he,
            specGo_endfacet3 line rest a b d hv' he]
          obtain ⟨h1, h2, h3⟩ := ih (accTriangle g a b d) (c + 1) []
          refine ⟨?_, ?_, ?_⟩
          · rw [h1]
            simp only [List.length_cons]
            omega
          · rw [h2, List.foldl_cons]
            rfl
          · rw [h3, List.foldl_cons]
            rfl
        · push_neg at h3
          rw [asciiLineStep_endfacet_other g c vs line hv' he h3,
            specGo_endfacet_other line rest vs hv' he h3]
          exact ih g c []
      · have he' : startsWithL (toLowerStr (jsTrim line)) endfacetCodes = false := by
          simpa using he
        rw [asciiLineStep_other g c vs line hv' he',
          specGo_other line rest vs hv' he']
        exact ih g c vs


theorem mkAnalysis_triangleCount (acc : GeoAcc) (n : ℕ) :
    (mkAnalysis acc n).triangleCount = n := rfl

theorem mkAnalysis_surfaceArea (acc : GeoAcc) (n : ℕ) :
    (mkAnalysis acc n).surfaceArea = round2J (jdiv acc.totalSurfaceArea (fin 100)) := rfl

theorem mkAnalysis_volume (acc : GeoAcc) (n : ℕ) :
    (mkAnalysis acc n).volume = round2J (jdiv (jabs acc.totalVolume) (fin 1000)) := rfl

theorem mkAnalysis_isWatertight (acc : GeoAcc) (n : ℕ) :
    (mkAnalysis acc n).isWatertight = jgt acc.totalVolume (fin 0) := rfl

/-- C5 (amended): for every ASCII-classified buffer the decoder folds the
trimmed, lowercased lines: a `"vertex"` line **with at least 4 whitespace
tokens** appends its 2nd–4th tokens (parsed as floats) to the pending
accumulator (a vertex line with fewer tokens is ignored — the amendment);
an `"endfacet"` line emits one triangle iff exactly 3 vertices are pending
and clears the accumulator either way; the result aggregates exactly those
triangles and always has hasErrors=false with no errors. -/
theorem C5_ascii_spec (buf : List ℕ) (hascii : isBinaryStl buf = false) :
    (analyzeStl buf).hasErrors = false
    ∧ (analyzeStl buf).errors = []
    ∧ (analyzeStl buf).triangleCount = (specTriangles buf).length
    ∧ (analyzeStl buf).surfaceArea
        = round2J (jdiv (specAreaSum (specTriangles buf)) (fin 100))
    ∧ (analyzeStl buf).volume
        = round2J (jdiv (jabs (specVolSum (specTriangles buf))) (fin 1000))
    ∧ (analyzeStl buf).isWatertight = jgt (specVolSum (specTriangles buf)) (fin 0) := by
  unfold analyzeStl
  rw [hascii, if_neg (by simp)]
  unfold analyzeAsciiStl
  dsimp only
  obtain ⟨h1, h2, h3⟩ := ascii_fold_spec (splitOnNl (toAsciiChars buf)) initAcc 0 []
  refine ⟨rfl, rfl, ?_, ?_, ?_, ?_⟩
  · rw [mkAnalysis_triangleCount, h1]
    simp [specTriangles]
  · rw [mkAnalysis_surfaceArea, h2]
    rfl
  · rw [mkAnalysis_volume, h3]
    rfl
  · rw [mkAnalysis_isWatertight, h3]
    rfl

/-- C5 counterexample: on an ASCII facet containing the 3-token line
`vertex 1 2` plus three well-formed vertex lines, the code ignores the
malformed line and emits 1 triangle, while the claim's unguarded
"every vertex line appends" reading leaves 4 vertices pending and predicts
0 triangles. -/
theorem C5_counterexample :
    isBinaryStl c5Buf = false
    ∧ (analyzeStl c5Buf).triangleCount = 1
    ∧ claimLiteralTriangleCount c5Buf = 0 := by
  with_unfolding_all decide

/-- Witness for C2 at the empty buffer (binary-classified, too short). -/
theorem C2_binary_error_iff_witness :
    ((∀ b ∈ ([] : List ℕ), b < 256) ∧ isBinaryStl [] = true)
    ∧ ((((analyzeStl []).hasErrors = true
        ∧ (analyzeStl []).errors ≠ []
        ∧ (analyzeStl []).volume = JsNum.fin 0
        ∧ (analyzeStl []).surfaceArea = JsNum.fin 0
        ∧ (analyzeStl []).boundingBox = ⟨JsNum.fin 0, JsNum.fin 0, JsNum.fin 0⟩
        ∧ (analyzeStl []).triangleCount = 0)
      ↔ (List.length ([] : List ℕ) < 84
          ∨ List.length ([] : List ℕ) < 84 + 50 * readUInt32LE [] 80))
    ∧ (¬ (List.length ([] : List ℕ) < 84
          ∨ List.length ([] : List ℕ) < 84 + 50 * readUInt32LE [] 80) →
        (analyzeStl []).hasErrors = false
        ∧ (analyzeStl []).triangleCount = readUInt32LE [] 80)) :=
  ⟨⟨by simp, by decide⟩, C2_binary_error_iff [] (by simp) (by decide)⟩

/-- Witness for C3 at the empty buffer, whose analysis fails: the implication
hypothesis hasErrors=true is discharged concretely. -/
theorem C3_analyzeStl_invariant_witness :
    (analyzeStl []).hasErrors = true
    ∧ ((analyzeStl []).volume = JsNum.fin 0
      ∧ (analyzeStl []).surfaceArea = JsNum.fin 0
      ∧ (analyzeStl []).boundingBox = ⟨JsNum.fin 0, JsNum.fin 0, JsNum.fin 0⟩
      ∧ (analyzeStl []).triangleCount = 0
      ∧ (analyzeStl []).isWatertight = false
      ∧ (analyzeStl []).errors ≠ []) :=
  ⟨by with_unfolding_all decide,
    (C3_analyzeStl_invariant []).1 (by with_unfolding_all decide)⟩

/-- The witness buffer for C5: a well-formed one-facet ASCII STL. -/
theorem C5_ascii_spec_witness :
    isBinaryStl (strBytes "solid a\nvertex 0 0 0\nvertex 10 0 0\nvertex 0 10 0\nendfacet\nendsolid") = false
    ∧ ((analyzeStl (strBytes "solid a\nvertex 0 0 0\nvertex 10 0 0\nvertex 0 10 0\nendfacet\nendsolid")).hasErrors = false
      ∧ (analyzeStl (strBytes "solid a\nvertex 0 0 0\nvertex 10 0 0\nvertex 0 10 0\nendfacet\nendsolid")).errors = []
      ∧ (analyzeStl (strBytes "solid a\nvertex 0 0 0\nvertex 10 0 0\nvertex 0 10 0\nendfacet\nendsolid")).triangleCount
          = (specTriangles (strBytes "solid a\nvertex 0 0 0\nvertex 10 0 0\nvertex 0 10 0\nendfacet\nendsolid")).length
      ∧ (analyzeStl (strBytes "solid a\nvertex 0 0 0\nvertex 10 0 0\nvertex 0 10 0\nendfacet\nendsolid")).surfaceArea
          = round2J (jdiv (specAreaSum (specTriangles (strBytes "solid a\nvertex 0 0 0\nvertex 10 0 0\nvertex 0 10 0\nendfacet\nendsolid"))) (fin 100))
      ∧ (analyzeStl (strBytes "solid a\nvertex 0 0 0\nvertex 10 0 0\nvertex 0 10 0\nendfacet\nendsolid")).volume
          = round2J (jdiv (jabs (specVolSum (specTriangles (strBytes "solid a\nvertex 0 0 0\nvertex 10 0 0\nvertex 0 10 0\nendfacet\nendsolid")))) (fin 1000))
      ∧ (analyzeStl (strBytes "solid a\nvertex 0 0 0\nvertex 10 0 0\nvertex 0 10 0\nendfacet\nendsolid")).isWatertight
          = jgt (specVolSum (specTriangles (strBytes "solid a\nvertex 0 0 0\nvertex 10 0 0\nvertex 0 10 0\nendfacet\nendsolid"))) (fin 0)) :=
  ⟨by with_unfolding_all decide,
    C5_ascii_spec (strBytes "solid a\nvertex 0 0 0\nvertex 10 0 0\nvertex 0 10 0\nendfacet\nendsolid")
      (by with_unfolding_all decide)⟩

/-- Witness for C9: an 84-byte zero buffer (binary, count 0) and the
buffer `"solid"` (ASCII, no vertex lines). -/
theorem C9_zero_vertices_witness :
    (isBinaryStl (List.replicate 84 0) = true
      ∧ 84 ≤ (List.replicate 84 (0:ℕ)).length
      ∧ readUInt32LE (List.replicate 84 0) 80 = 0
      ∧ isBinaryStl (strBytes "solid") = false
      ∧ ∀ l ∈ splitOnNl (toAsciiChars (strBytes "solid")),
          startsWithL (toLowerStr (jsTrim l)) vertexCodes = false)
    ∧ (analyzeStl (List.replicate 84 0) =
        ⟨JsNum.fin 0, JsNum.fin 0, ⟨JsNum.negInf, JsNum.negInf, JsNum.negInf⟩, 0, false, false, []⟩
      ∧ analyzeStl (strBytes "solid") =
        ⟨JsNum.fin 0, JsNum.fin 0, ⟨JsNum.negInf, JsNum.negInf, JsNum.negInf⟩, 0, false, false, []⟩) :=
  ⟨⟨by decide, by simp, by decide, by with_unfolding_all decide, by with_unfolding_all decide⟩,
    C9_zero_vertices (List.replicate 84 0) (strBytes "solid") (by decide) (by simp)
      (by decide) (by with_unfolding_all decide) (by with_unfolding_all decide)⟩
